import Mathlib

/-!  A shallow embedding of the core interpolation engine of
`gempy/core/theano/theano_graph_pro.py` (class `TheanoGraphPro`), together
with theorems checking the specification's claims about it.

Conventions: tensors are embedded as total functions `ℕ → ℕ → α` (matrices)
or `ℕ → α` (vectors) over a linear ordered field `α`, with the relevant
extents carried separately; elementwise tensor operations become pointwise
operations on the functions, reductions become sums over explicit index
ranges.  The floating-point square root (`T.sqrt`) and exponential (`T.exp`)
are abstracted as function parameters `rt` and `ex`; theorems that need their
analytic properties instantiate `α := ℝ`, `rt := Real.sqrt`.  The singular
value decomposition `T.nlinalg.svd` is abstracted as a function parameter.
-/

namespace Gempy

/-- Constant kriging parameters shared by all series (shared variables set in
`TheanoGraphPro.__init__`): the range `a_T`, the covariance at zero `c_o_T`,
the gradient and scalar nugget effects, and the two rescale factors
`i_reescale` and `gi_reescale`. -/
structure KrigingParams (α : Type) where
  aT : α
  cO : α
  nuggetGrad : α
  nuggetScalar : α
  iRescale : α
  giRescale : α

/-- The per-series inputs of the kriging system builder: `n` dip positions
(`dips_position`, an `n × 3` matrix), `m` rest points and their aligned
reference points (`rest_layer_points` / `ref_layer_points`, `m × 3` each,
`m` = `len_points`), the incoming fault matrix (`p` rows, `faultCols`
columns), and the number of universal-drift columns `u`
(`n_universal_eq_T_op`). -/
structure SeriesData (α : Type) where
  n : ℕ
  m : ℕ
  p : ℕ
  u : ℕ
  dips : ℕ → ℕ → α
  rest : ℕ → ℕ → α
  ref : ℕ → ℕ → α
  faultCols : ℕ
  faultM : ℕ → ℕ → α

variable {α : Type} [LinearOrderedField α]

/-- Row-wise squared norm `(x ** 2).sum(1)` of a 3-column matrix. -/
def sq3 (X : ℕ → ℕ → α) (i : ℕ) : α :=
  X i 0 ^ 2 + X i 1 ^ 2 + X i 2 ^ 2

/-- Row `i` of `x_1` dotted with row `j` of `x_2` (`x_1.dot(x_2.T)`). -/
def dot3 (X Y : ℕ → ℕ → α) (i j : ℕ) : α :=
  X i 0 * Y j 0 + X i 1 * Y j 1 + X i 2 * Y j 2

/-- `squared_euclidean_distances`: entry `(i, j)` of the pairwise distance
matrix `T.sqrt(T.maximum((x_1**2).sum(1)[:,None] + (x_2**2).sum(1)[None,:]
- 2 * x_1.dot(x_2.T), 1e-12))`, with the square root abstracted as `rt`. -/
def squared_euclidean_distances (rt : α → α) (X Y : ℕ → ℕ → α) (i j : ℕ) : α :=
  rt (max (sq3 X i + sq3 Y j - 2 * dot3 X Y i j) (1 / 10 ^ 12))

/-- `dips_position_tiled = T.tile(dips_position, (3, 1))`: the dip positions
stacked three times vertically, one copy per spatial direction. -/
def dipsTiled (D : SeriesData α) (i d : ℕ) : α :=
  D.dips (i % D.n) d

/-- `h_u`: Cartesian distances between dip positions, stacked per direction;
entry `(i, j)` is `dips[j % n, i / n] - dips[i % n, i / n]`. -/
def hU (D : SeriesData α) (i j : ℕ) : α :=
  D.dips (j % D.n) (i / D.n) - D.dips (i % D.n) (i / D.n)

/-- `h_v = h_u.T`. -/
def hV (D : SeriesData α) (i j : ℕ) : α :=
  hU D j i

/-- `perpendicularity_matrix`: 1 on the three `n × n` diagonal blocks of a
`3n × 3n` matrix, 0 elsewhere. -/
def perpM (D : SeriesData α) (i j : ℕ) : α :=
  if i / D.n = j / D.n then 1 else 0

/-- Compact-support indicator `(r < a_T)` used throughout the kernels. -/
def ind (aT r : α) : α :=
  if r < aT then 1 else 0

/-- The degree-7 interface covariance polynomial in the normalized distance
`u = r / a`: `1 - 7 u^2 + 35/4 u^3 - 7/2 u^5 + 3/4 u^7`. -/
def interfacePoly (u : α) : α :=
  1 - 7 * u ^ 2 + 35 / 4 * u ^ 3 - 7 / 2 * u ^ 5 + 3 / 4 * u ^ 7

/-- One per-pair interface covariance term: compact-support indicator times
the spline polynomial at `r / a`, exactly as each of the four summands of
`cov_surface_points` is written. -/
def interfaceKernel (aT r : α) : α :=
  ind aT r * interfacePoly (r / aT)

/-- The first-derivative factor of the spline as written in `cov_gradients`,
`cov_interface_gradients` and `contribution_gradient_interface`:
`-14/a^2 + 105/4 r/a^3 - 35/2 r^3/a^5 + 21/4 r^5/a^7`. -/
def gradPoly (aT r : α) : α :=
  (-14) / aT ^ 2 + 105 / 4 * r / aT ^ 3 - 35 / 2 * r ^ 3 / aT ^ 5
    + 21 / 4 * r ^ 5 / aT ^ 7

/-- The second-derivative factor of the spline as written in `cov_gradients`:
`7 (9 r^5 - 20 a^2 r^3 + 15 a^4 r - 4 a^5) / (2 a^7)`. -/
def gradPoly2 (aT r : α) : α :=
  7 * (9 * r ^ 5 - 20 * aT ^ 2 * r ^ 3 + 15 * aT ^ 4 * r - 4 * aT ^ 5)
    / (2 * aT ^ 7)

/-- The branch of `cov_gradients` taken when the pairwise distance is nonzero
(the `else` branch of the `T.switch`, "following Chiles book"). -/
def cov_gradients_core (P : KrigingParams α) (D : SeriesData α) (rt : α → α)
    (i j : ℕ) : α :=
  hU D i j * hV D i j / squared_euclidean_distances rt (dipsTiled D) (dipsTiled D) i j ^ 2 *
      (ind P.aT (squared_euclidean_distances rt (dipsTiled D) (dipsTiled D) i j) *
          (-P.cO * gradPoly P.aT (squared_euclidean_distances rt (dipsTiled D) (dipsTiled D) i j)) +
        ind P.aT (squared_euclidean_distances rt (dipsTiled D) (dipsTiled D) i j) *
          (P.cO * gradPoly2 P.aT (squared_euclidean_distances rt (dipsTiled D) (dipsTiled D) i j))) -
    perpM D i j *
      (ind P.aT (squared_euclidean_distances rt (dipsTiled D) (dipsTiled D) i j) *
        (P.cO * gradPoly P.aT (squared_euclidean_distances rt (dipsTiled D) (dipsTiled D) i j)))

/-- `cov_gradients`: gradient-gradient covariance `C_G`; the `T.switch` on a
zero distance, plus the nugget effect added on the diagonal
(`C_G += T.eye(..) * nugget_effect_grad_T`). -/
def cov_gradients (P : KrigingParams α) (D : SeriesData α) (rt : α → α)
    (i j : ℕ) : α :=
  (if squared_euclidean_distances rt (dipsTiled D) (dipsTiled D) i j = 0 then 0
   else cov_gradients_core P D rt i j) +
    (if i = j then P.nuggetGrad else 0)

/-- `cov_surface_points`: interface covariance `C_I` built from the four
rest/reference distance matrices, plus `2 * nugget_effect_scalar_T` on the
diagonal. -/
def cov_surface_points (P : KrigingParams α) (D : SeriesData α) (rt : α → α)
    (i j : ℕ) : α :=
  P.cO * P.iRescale *
      (interfaceKernel P.aT (squared_euclidean_distances rt D.rest D.rest i j) -
        interfaceKernel P.aT (squared_euclidean_distances rt D.ref D.rest i j) -
        interfaceKernel P.aT (squared_euclidean_distances rt D.rest D.ref i j) +
        interfaceKernel P.aT (squared_euclidean_distances rt D.ref D.ref i j)) +
    (if i = j then 2 * P.nuggetScalar else 0)

/-- `hu_rest`: Cartesian distances between dips and rest points, stacked per
direction (a `3n × m` matrix). -/
def huRest (D : SeriesData α) (i j : ℕ) : α :=
  D.dips (i % D.n) (i / D.n) - D.rest j (i / D.n)

/-- `hu_ref`: Cartesian distances between dips and reference points. -/
def huRef (D : SeriesData α) (i j : ℕ) : α :=
  D.dips (i % D.n) (i / D.n) - D.ref j (i / D.n)

/-- `cov_interface_gradients`: cross covariance `C_GI` (the code transposes
the stacked expression at the end, so this is an `m × 3n` matrix: row `i` is
a rest point, column `j` a tiled dip). -/
def cov_interface_gradients (P : KrigingParams α) (D : SeriesData α)
    (rt : α → α) (i j : ℕ) : α :=
  P.giRescale *
    (huRest D j i *
        ind P.aT (squared_euclidean_distances rt (dipsTiled D) D.rest j i) *
        (-P.cO * gradPoly P.aT (squared_euclidean_distances rt (dipsTiled D) D.rest j i)) -
      huRef D j i *
        ind P.aT (squared_euclidean_distances rt (dipsTiled D) D.ref j i) *
        (-P.cO * gradPoly P.aT (squared_euclidean_distances rt (dipsTiled D) D.ref j i)))

/-- `universal_matrix`, gradient part `U_G`: a `3n × 9` matrix of drift terms
filled block by block with `T.set_subtensor` (columns: x, y, z, x², y², z²,
xy, xz, yz), later sliced to the first `u` columns. -/
def U_G (P : KrigingParams α) (D : SeriesData α) (i c : ℕ) : α :=
  if c = 0 then (if i < D.n then 1 else 0)
  else if c = 1 then (if D.n ≤ i ∧ i < 2 * D.n then 1 else 0)
  else if c = 2 then (if 2 * D.n ≤ i ∧ i < 3 * D.n then 1 else 0)
  else if c = 3 then (if i < D.n then 2 * P.giRescale * D.dips (i % D.n) 0 else 0)
  else if c = 4 then (if D.n ≤ i ∧ i < 2 * D.n then 2 * P.giRescale * D.dips (i % D.n) 1 else 0)
  else if c = 5 then (if 2 * D.n ≤ i ∧ i < 3 * D.n then 2 * P.giRescale * D.dips (i % D.n) 2 else 0)
  else if c = 6 then
    (if i < D.n then P.giRescale * D.dips (i % D.n) 1
     else if i < 2 * D.n then P.giRescale * D.dips (i % D.n) 0 else 0)
  else if c = 7 then
    (if i < D.n then P.giRescale * D.dips (i % D.n) 2
     else if 2 * D.n ≤ i ∧ i < 3 * D.n then P.giRescale * D.dips (i % D.n) 0 else 0)
  else if c = 8 then
    (if D.n ≤ i ∧ i < 2 * D.n then P.giRescale * D.dips (i % D.n) 2
     else if 2 * D.n ≤ i ∧ i < 3 * D.n then P.giRescale * D.dips (i % D.n) 1 else 0)
  else 0

/-- `universal_matrix`, interface part `U_I`: an `m × 9` matrix of rest/ref
drift differences (note the overall leading minus sign in the source). -/
def U_I (P : KrigingParams α) (D : SeriesData α) (i c : ℕ) : α :=
  -(if c = 0 then P.giRescale * (D.rest i 0 - D.ref i 0)
    else if c = 1 then P.giRescale * (D.rest i 1 - D.ref i 1)
    else if c = 2 then P.giRescale * (D.rest i 2 - D.ref i 2)
    else if c = 3 then P.giRescale ^ 2 * (D.rest i 0 ^ 2 - D.ref i 0 ^ 2)
    else if c = 4 then P.giRescale ^ 2 * (D.rest i 1 ^ 2 - D.ref i 1 ^ 2)
    else if c = 5 then P.giRescale ^ 2 * (D.rest i 2 ^ 2 - D.ref i 2 ^ 2)
    else if c = 6 then P.giRescale ^ 2 * (D.rest i 0 * D.rest i 1 - D.ref i 0 * D.ref i 1)
    else if c = 7 then P.giRescale ^ 2 * (D.rest i 0 * D.rest i 2 - D.ref i 0 * D.ref i 2)
    else if c = 8 then P.giRescale ^ 2 * (D.rest i 1 * D.rest i 2 - D.ref i 1 * D.ref i 2)
    else 0)

/-- `fault_drift_at_surface_points_rest`: columns
`[faultCols - 2m, faultCols - m)` of the incoming fault matrix. -/
def fault_drift_at_surface_points_rest (D : SeriesData α) (i j : ℕ) : α :=
  D.faultM i (D.faultCols - 2 * D.m + j)

/-- `fault_drift_at_surface_points_ref`: columns `[faultCols - m, faultCols)`
of the incoming fault matrix. -/
def fault_drift_at_surface_points_ref (D : SeriesData α) (i j : ℕ) : α :=
  D.faultM i (D.faultCols - 2 * D.m + D.m + j)

/-- `faults_matrix`, interface part `F_I = (ref - rest) + 0.0001`
(a `p × m` matrix). -/
def F_I (D : SeriesData α) (i j : ℕ) : α :=
  (fault_drift_at_surface_points_ref D i j - fault_drift_at_surface_points_rest D i j) + 1 / 10 ^ 4

/-- `faults_matrix`, gradient part `F_G = T.zeros(..) + 0.0001`
(a `p × 3n` matrix). -/
def F_G (D : SeriesData α) (i j : ℕ) : α :=
  0 + 1 / 10 ^ 4

/-- `T.set_subtensor(C[r0:r1, c0:c1], B)`: overwrite the rectangular index
region with block `B`. -/
def setSub (M : ℕ → ℕ → α) (r0 r1 c0 c1 : ℕ) (B : ℕ → ℕ → α) (i j : ℕ) : α :=
  if r0 ≤ i ∧ i < r1 ∧ c0 ≤ j ∧ j < c1 then B (i - r0) (j - c0) else M i j

lemma setSub_in {M : ℕ → ℕ → α} {r0 r1 c0 c1 : ℕ} {B : ℕ → ℕ → α} {i j : ℕ}
    (h : r0 ≤ i ∧ i < r1 ∧ c0 ≤ j ∧ j < c1) :
    setSub M r0 r1 c0 c1 B i j = B (i - r0) (j - c0) :=
  if_pos h

lemma setSub_out {M : ℕ → ℕ → α} {r0 r1 c0 c1 : ℕ} {B : ℕ → ℕ → α} {i j : ℕ}
    (h : ¬(r0 ≤ i ∧ i < r1 ∧ c0 ≤ j ∧ j < c1)) :
    setSub M r0 r1 c0 c1 B i j = M i j :=
  if_neg h

/-- `covariance_matrix`: the universal cokriging matrix, assembled exactly as
in the source: starting from `C_matrix = T.zeros((length_of_C, length_of_C))`
(with `length_of_CG = 3n`, `length_of_CGI = m`, `length_of_U_I = u`,
`length_of_faults = p`), the twelve `T.set_subtensor` writes in source order:
first row of blocks `C_G`, `C_GI.T`, `U_G`, `F_G.T`; second row `C_GI`,
`C_I`, `U_I`, `F_I.T`; third row `U_G.T`, `U_I.T`; fourth row `F_G`,
`F_I`. -/
def covariance_matrix (P : KrigingParams α) (D : SeriesData α) (rt : α → α) :
    ℕ → ℕ → α :=
  setSub (setSub (setSub (setSub (setSub (setSub (setSub (setSub (setSub
    (setSub (setSub (setSub
    (fun _ _ => 0)
    0 (3 * D.n) 0 (3 * D.n)
    (cov_gradients P D rt))
    0 (3 * D.n) (3 * D.n) (3 * D.n + D.m)
    (fun a b => cov_interface_gradients P D rt b a))
    0 (3 * D.n) (3 * D.n + D.m) (3 * D.n + D.m + D.u)
    (U_G P D))
    0 (3 * D.n) (3 * D.n + D.m + D.u) (3 * D.n + D.m + D.u + D.p)
    (fun a b => F_G D b a))
    (3 * D.n) (3 * D.n + D.m) 0 (3 * D.n)
    (cov_interface_gradients P D rt))
    (3 * D.n) (3 * D.n + D.m) (3 * D.n) (3 * D.n + D.m)
    (cov_surface_points P D rt))
    (3 * D.n) (3 * D.n + D.m) (3 * D.n + D.m) (3 * D.n + D.m + D.u)
    (U_I P D))
    (3 * D.n) (3 * D.n + D.m) (3 * D.n + D.m + D.u) (3 * D.n + D.m + D.u + D.p)
    (fun a b => F_I D b a))
    (3 * D.n + D.m) (3 * D.n + D.m + D.u) 0 (3 * D.n)
    (fun a b => U_G P D b a))
    (3 * D.n + D.m) (3 * D.n + D.m + D.u) (3 * D.n) (3 * D.n + D.m)
    (fun a b => U_I P D b a))
    (3 * D.n + D.m + D.u) (3 * D.n + D.m + D.u + D.p) 0 (3 * D.n)
    (F_G D))
    (3 * D.n + D.m + D.u) (3 * D.n + D.m + D.u + D.p) (3 * D.n) (3 * D.n + D.m)
    (F_I D)

/-- The entrywise form of the assembled covariance matrix: in-bounds entries
of `covariance_matrix`, by index region (proved below). -/
def covariance_matrix_entries (P : KrigingParams α) (D : SeriesData α) (rt : α → α)
    (i j : ℕ) : α :=
  if i < 3 * D.n then
    (if j < 3 * D.n then cov_gradients P D rt i j
     else if j < 3 * D.n + D.m then cov_interface_gradients P D rt (j - 3 * D.n) i
     else if j < 3 * D.n + D.m + D.u then U_G P D i (j - (3 * D.n + D.m))
     else F_G D (j - (3 * D.n + D.m + D.u)) i)
  else if i < 3 * D.n + D.m then
    (if j < 3 * D.n then cov_interface_gradients P D rt (i - 3 * D.n) j
     else if j < 3 * D.n + D.m then cov_surface_points P D rt (i - 3 * D.n) (j - 3 * D.n)
     else if j < 3 * D.n + D.m + D.u then U_I P D (i - 3 * D.n) (j - (3 * D.n + D.m))
     else F_I D (j - (3 * D.n + D.m + D.u)) (i - 3 * D.n))
  else if i < 3 * D.n + D.m + D.u then
    (if j < 3 * D.n then U_G P D j (i - (3 * D.n + D.m))
     else if j < 3 * D.n + D.m then U_I P D (j - 3 * D.n) (i - (3 * D.n + D.m))
     else 0)
  else
    (if j < 3 * D.n then F_G D (i - (3 * D.n + D.m + D.u)) j
     else if j < 3 * D.n + D.m then F_I D (i - (3 * D.n + D.m + D.u)) (j - 3 * D.n)
     else 0)

lemma sed_swap (rt : α → α) (X Y : ℕ → ℕ → α) (i j : ℕ) :
    squared_euclidean_distances rt X Y i j = squared_euclidean_distances rt Y X j i := by
  have h : sq3 X i + sq3 Y j - 2 * dot3 X Y i j
      = sq3 Y j + sq3 X i - 2 * dot3 Y X j i := by
    unfold sq3 dot3; ring
  unfold squared_euclidean_distances
  rw [h]

lemma cov_gradients_core_symm (P : KrigingParams α) (D : SeriesData α)
    (rt : α → α) (i j : ℕ) :
    cov_gradients_core P D rt i j = cov_gradients_core P D rt j i := by
  unfold cov_gradients_core hV perpM
  rw [sed_swap rt (dipsTiled D) (dipsTiled D) i j]
  rw [show (if i / D.n = j / D.n then (1 : α) else 0)
      = (if j / D.n = i / D.n then (1 : α) else 0) by simp [eq_comm]]
  ring

lemma cov_gradients_symm (P : KrigingParams α) (D : SeriesData α)
    (rt : α → α) (i j : ℕ) :
    cov_gradients P D rt i j = cov_gradients P D rt j i := by
  unfold cov_gradients
  rw [cov_gradients_core_symm, sed_swap rt (dipsTiled D) (dipsTiled D) i j]
  congr 1
  simp [eq_comm]

lemma cov_surface_points_symm (P : KrigingParams α) (D : SeriesData α)
    (rt : α → α) (i j : ℕ) :
    cov_surface_points P D rt i j = cov_surface_points P D rt j i := by
  unfold cov_surface_points
  rw [sed_swap rt D.rest D.rest i j, sed_swap rt D.ref D.ref i j,
    sed_swap rt D.ref D.rest i j, sed_swap rt D.rest D.ref i j]
  rw [show (if i = j then 2 * P.nuggetScalar else 0)
      = (if j = i then 2 * P.nuggetScalar else 0) by simp [eq_comm]]
  ring

lemma covariance_matrix_entry (P : KrigingParams α) (D : SeriesData α)
    (rt : α → α) (i j : ℕ) (hi : i < 3 * D.n + D.m + D.u + D.p)
    (hj : j < 3 * D.n + D.m + D.u + D.p) :
    covariance_matrix P D rt i j = covariance_matrix_entries P D rt i j := by
  unfold covariance_matrix covariance_matrix_entries
  by_cases h1 : i < 3 * D.n <;> by_cases h2 : i < 3 * D.n + D.m <;>
    by_cases h3 : i < 3 * D.n + D.m + D.u <;> by_cases h4 : j < 3 * D.n <;>
    by_cases h5 : j < 3 * D.n + D.m <;> by_cases h6 : j < 3 * D.n + D.m + D.u <;>
  first
    | omega
    | (rw [setSub_out (by omega), setSub_out (by omega), setSub_out (by omega), setSub_out (by omega), setSub_out (by omega), setSub_out (by omega), setSub_out (by omega), setSub_out (by omega), setSub_out (by omega), setSub_out (by omega), setSub_out (by omega), setSub_in (by omega)]; (try simp only [Nat.sub_zero]); split_ifs <;> first | rfl | omega)
    | (rw [setSub_out (by omega), setSub_out (by omega), setSub_out (by omega), setSub_out (by omega), setSub_out (by omega), setSub_out (by omega), setSub_out (by omega), setSub_out (by omega), setSub_out (by omega), setSub_out (by omega), setSub_in (by omega)]; (try simp only [Nat.sub_zero]); split_ifs <;> first | rfl | omega)
    | (rw [setSub_out (by omega), setSub_out (by omega), setSub_out (by omega), setSub_out (by omega), setSub_out (by omega), setSub_out (by omega), setSub_out (by omega), setSub_out (by omega), setSub_out (by omega), setSub_in (by omega)]; (try simp only [Nat.sub_zero]); split_ifs <;> first | rfl | omega)
    | (rw [setSub_out (by omega), setSub_out (by omega), setSub_out (by omega), setSub_out (by omega), setSub_out (by omega), setSub_out (by omega), setSub_out (by omega), setSub_out (by omega), setSub_in (by omega)]; (try simp only [Nat.sub_zero]); split_ifs <;> first | rfl | omega)
    | (rw [setSub_out (by omega), setSub_out (by omega), setSub_out (by omega), setSub_out (by omega), setSub_out (by omega), setSub_out (by omega), setSub_out (by omega), setSub_in (by omega)]; (try simp only [Nat.sub_zero]); split_ifs <;> first | rfl | omega)
    | (rw [setSub_out (by omega), setSub_out (by omega), setSub_out (by omega), setSub_out (by omega), setSub_out (by omega), setSub_out (by omega), setSub_in (by omega)]; (try simp only [Nat.sub_zero]); split_ifs <;> first | rfl | omega)
    | (rw [setSub_out (by omega), setSub_out (by omega), setSub_out (by omega), setSub_out (by omega), setSub_out (by omega), setSub_in (by omega)]; (try simp only [Nat.sub_zero]); split_ifs <;> first | rfl | omega)
    | (rw [setSub_out (by omega), setSub_out (by omega), setSub_out (by omega), setSub_out (by omega), setSub_in (by omega)]; (try simp only [Nat.sub_zero]); split_ifs <;> first | rfl | omega)
    | (rw [setSub_out (by omega), setSub_out (by omega), setSub_out (by omega), setSub_in (by omega)]; (try simp only [Nat.sub_zero]); split_ifs <;> first | rfl | omega)
    | (rw [setSub_out (by omega), setSub_out (by omega), setSub_in (by omega)]; (try simp only [Nat.sub_zero]); split_ifs <;> first | rfl | omega)
    | (rw [setSub_out (by omega), setSub_out (by omega), setSub_out (by omega), setSub_out (by omega), setSub_out (by omega), setSub_out (by omega), setSub_out (by omega), setSub_out (by omega), setSub_out (by omega), setSub_out (by omega), setSub_out (by omega), setSub_out (by omega)]; (try simp only [Nat.sub_zero]); split_ifs <;> first | rfl | omega)
    | (rw [setSub_out (by omega), setSub_in (by omega)]; (try simp only [Nat.sub_zero]); split_ifs <;> first | rfl | omega)
    | (rw [setSub_in (by omega)]; (try simp only [Nat.sub_zero]); split_ifs <;> first | rfl | omega)

lemma cov_entries_symm (P : KrigingParams α) (D : SeriesData α)
    (rt : α → α) (i j : ℕ) :
    covariance_matrix_entries P D rt i j = covariance_matrix_entries P D rt j i := by
  unfold covariance_matrix_entries
  split_ifs <;>
    first
      | rfl
      | omega
      | exact cov_gradients_symm P D rt i j
      | exact cov_surface_points_symm P D rt (i - 3 * D.n) (j - 3 * D.n)

/-- C1: for every series input (dip positions, reference/rest surface points,
drift degree, incoming fault rows) and every abstract square root `rt`, the
assembled covariance matrix is symmetric on its `length_of_C × length_of_C`
extent: the diagonal blocks `C_G` and `C_I` are symmetric and each
off-diagonal block is placed opposite its transpose. -/
theorem covariance_matrix_symm (P : KrigingParams α) (D : SeriesData α)
    (rt : α → α) (i j : ℕ) (hi : i < 3 * D.n + D.m + D.u + D.p)
    (hj : j < 3 * D.n + D.m + D.u + D.p) :
    covariance_matrix P D rt i j = covariance_matrix P D rt j i := by
  rw [covariance_matrix_entry P D rt i j hi hj,
    covariance_matrix_entry P D rt j i hj hi]
  exact cov_entries_symm P D rt i j

/-- C2: an admissibility hypothesis-free statement of compact support: any
per-pair interface kernel term at distance `≥ a_T` vanishes, and any
off-diagonal gradient covariance entry at distance `≥ a_T` vanishes. -/
theorem compact_support_zero (P : KrigingParams α) (D : SeriesData α)
    (rt : α → α) :
    (∀ (X Y : ℕ → ℕ → α) (i j : ℕ),
        P.aT ≤ squared_euclidean_distances rt X Y i j →
        interfaceKernel P.aT (squared_euclidean_distances rt X Y i j) = 0) ∧
    (∀ i j : ℕ, i ≠ j →
        P.aT ≤ squared_euclidean_distances rt (dipsTiled D) (dipsTiled D) i j →
        cov_gradients P D rt i j = 0) := by
  constructor
  · intro X Y i j h
    unfold interfaceKernel ind
    rw [if_neg (not_lt.mpr h), zero_mul]
  · intro i j hij h
    unfold cov_gradients
    rw [if_neg hij]
    by_cases h0 : squared_euclidean_distances rt (dipsTiled D) (dipsTiled D) i j = 0
    · rw [if_pos h0, add_zero]
    · rw [if_neg h0, add_zero]
      unfold cov_gradients_core ind
      rw [if_neg (not_lt.mpr h)]
      ring

/-- Concrete kriging parameters used by witnesses: range 1, covariance-at-0 1,
both nuggets 1, the default rescale factors 4 and 2. -/
def exP : KrigingParams ℚ :=
  ⟨1, 1, 1, 1, 4, 2⟩

/-- A concrete point set whose points are all at the origin. -/
def exX : ℕ → ℕ → ℚ :=
  fun _ _ => 0

/-- A concrete point set whose points are all `(2, 0, 0)`. -/
def exY : ℕ → ℕ → ℚ :=
  fun _ d => if d = 0 then 2 else 0

/-- Concrete series data used by witnesses: two dips at `(0,0,0)` and
`(2,0,0)`, one rest/ref pair, no faults, drift degree-1 (3 columns). -/
def exD : SeriesData ℚ where
  n := 2
  m := 1
  p := 0
  u := 3
  dips := fun i d => if i % 2 = 1 ∧ d = 0 then 2 else 0
  rest := fun _ _ => 0
  ref := fun _ d => if d = 0 then 1 else 0
  faultCols := 2
  faultM := fun _ _ => 0

theorem covariance_matrix_symm_witness :
    covariance_matrix exP exD id 0 4 = covariance_matrix exP exD id 4 0 :=
  covariance_matrix_symm exP exD id 0 4 (by decide) (by decide)

theorem compact_support_zero_witness :
    interfaceKernel exP.aT (squared_euclidean_distances id exX exY 0 0) = 0 ∧
    cov_gradients exP exD id 0 1 = 0 :=
  ⟨(compact_support_zero exP exD id).1 exX exY 0 0 (by
      norm_num [squared_euclidean_distances, sq3, dot3, exX, exY, exP]),
   (compact_support_zero exP exD id).2 0 1 (by decide) (by
      norm_num [squared_euclidean_distances, sq3, dot3, dipsTiled, exD, exP])⟩

/-- The first-derivative spline factor in normalized form
`u = r / a`: `-14 + 105/4 u - 35/2 u^3 + 21/4 u^5`; the code's
`gradPoly a r` is `1/a^2` times this polynomial at `u = r / a`. -/
def gradPolyNormalized (u : α) : α :=
  -14 + 105 / 4 * u - 35 / 2 * u ^ 3 + 21 / 4 * u ^ 5

/-- C8: the spline kernel vanishes smoothly at the range: the interface
polynomial is 0 at `u = 1`, the normalized first-derivative polynomial is 0
at `u = 1`, the latter is (up to the factor `u`) the true derivative of the
former, and the code's gradient kernel factor is `1/a^2` times the
normalized polynomial. -/
theorem spline_vanishes_at_range :
    interfacePoly (1 : ℚ) = 0 ∧
    gradPolyNormalized (1 : ℚ) = 0 ∧
    (∀ u : ℝ, HasDerivAt (fun v : ℝ => interfacePoly v)
      (u * gradPolyNormalized u) u) ∧
    (∀ a r : ℚ, a ≠ 0 → gradPoly a r = 1 / a ^ 2 * gradPolyNormalized (r / a)) := by
  refine ⟨by norm_num [interfacePoly], by norm_num [gradPolyNormalized], ?_, ?_⟩
  · intro u
    have hfun : (fun v : ℝ => interfacePoly v)
        = fun v : ℝ => 1 - 7 * v ^ 2 + 35 / 4 * v ^ 3 - 7 / 2 * v ^ 5 + 3 / 4 * v ^ 7 := by
      funext v
      simp [interfacePoly]
    rw [hfun]
    have h2 := (hasDerivAt_pow 2 u).const_mul (7 : ℝ)
    have h3 := (hasDerivAt_pow 3 u).const_mul ((35 : ℝ) / 4)
    have h5 := (hasDerivAt_pow 5 u).const_mul ((7 : ℝ) / 2)
    have h7 := (hasDerivAt_pow 7 u).const_mul ((3 : ℝ) / 4)
    have hall := ((((hasDerivAt_const u (1 : ℝ)).sub h2).add h3).sub h5).add h7
    convert hall using 1
    simp only [gradPolyNormalized]
    norm_num
    ring
  · intro a r ha
    unfold gradPoly gradPolyNormalized
    field_simp
    ring

theorem spline_vanishes_at_range_witness :
    gradPoly (2 : ℚ) 1 = 1 / 2 ^ 2 * gradPolyNormalized (1 / 2) :=
  spline_vanishes_at_range.2.2.2 2 1 (by decide)

/-- C10: over the reals with the true square root, every entry of the
distance matrix is at least `1e-6` (the square root of the `1e-12` clamp);
coincident points get distance exactly `1e-6`; hence the zero-distance
branch of the `T.switch` in `cov_gradients` is unreachable: `cov_gradients`
always equals its nonzero-distance branch plus the diagonal nugget. -/
theorem squared_euclidean_distances_clamped :
    (∀ (X Y : ℕ → ℕ → ℝ) (i j : ℕ),
        (1 : ℝ) / 10 ^ 6 ≤ squared_euclidean_distances Real.sqrt X Y i j) ∧
    (∀ (X Y : ℕ → ℕ → ℝ) (i j : ℕ), (∀ d, d < 3 → X i d = Y j d) →
        squared_euclidean_distances Real.sqrt X Y i j = 1 / 10 ^ 6) ∧
    (∀ (P : KrigingParams ℝ) (D : SeriesData ℝ) (i j : ℕ),
        cov_gradients P D Real.sqrt i j
          = cov_gradients_core P D Real.sqrt i j +
              (if i = j then P.nuggetGrad else 0)) := by
  have hsq : Real.sqrt ((1 : ℝ) / 10 ^ 12) = 1 / 10 ^ 6 := by
    rw [show (1 : ℝ) / 10 ^ 12 = ((1 : ℝ) / 10 ^ 6) ^ 2 by norm_num,
      Real.sqrt_sq (by norm_num)]
  have key : ∀ (X Y : ℕ → ℕ → ℝ) (i j : ℕ),
      (1 : ℝ) / 10 ^ 6 ≤ squared_euclidean_distances Real.sqrt X Y i j := by
    intro X Y i j
    unfold squared_euclidean_distances
    calc (1 : ℝ) / 10 ^ 6 = Real.sqrt (1 / 10 ^ 12) := hsq.symm
      _ ≤ _ := Real.sqrt_le_sqrt (le_max_right _ _)
  refine ⟨key, ?_, ?_⟩
  · intro X Y i j h
    have h0 := h 0 (by norm_num)
    have h1 := h 1 (by norm_num)
    have h2 := h 2 (by norm_num)
    unfold squared_euclidean_distances
    rw [show sq3 X i + sq3 Y j - 2 * dot3 X Y i j = 0 by
      unfold sq3 dot3; rw [h0, h1, h2]; ring]
    rw [max_eq_right (by norm_num : (0 : ℝ) ≤ 1 / 10 ^ 12)]
    exact hsq
  · intro P D i j
    unfold cov_gradients
    rw [if_neg ((lt_of_lt_of_le (by norm_num) (key _ _ i j)).ne')]

theorem squared_euclidean_distances_clamped_witness :
    squared_euclidean_distances Real.sqrt (fun _ _ => (0 : ℝ)) (fun _ _ => 0) 0 0
      = 1 / 10 ^ 6 :=
  squared_euclidean_distances_clamped.2.1 _ _ 0 0 (fun _ _ => rfl)

/-- `hu_SimPoint`: Cartesian distances between the dips and the points to
interpolate (a `3n × |chunk|` matrix). -/
def huSimPoint (D : SeriesData α) (grid : ℕ → ℕ → α) (i t : ℕ) : α :=
  D.dips (i % D.n) (i / D.n) - grid t (i / D.n)

/-- `contribution_gradient_interface`: the gradient (orientation)
contribution to the scalar field at evaluation point `t`, summed over the
first `3n` weight rows (`T.sum(weights[:length_of_CG] * ..., axis=0)`). -/
def contribution_gradient_interface (P : KrigingParams α) (D : SeriesData α)
    (rt : α → α) (grid : ℕ → ℕ → α) (w : ℕ → α) (t : ℕ) : α :=
  ∑ i ∈ Finset.range (3 * D.n),
    w i * (P.giRescale *
      (-huSimPoint D grid i t *
        ind P.aT (squared_euclidean_distances rt (dipsTiled D) grid i t) *
        (-P.cO * gradPoly P.aT (squared_euclidean_distances rt (dipsTiled D) grid i t))))

/-- `contribution_interface`: the surface-point contribution at evaluation
point `t`, summed over weight rows `[3n, 3n + m)`. -/
def contribution_interface (P : KrigingParams α) (D : SeriesData α)
    (rt : α → α) (grid : ℕ → ℕ → α) (w : ℕ → α) (t : ℕ) : α :=
  ∑ i ∈ Finset.range D.m,
    -w (3 * D.n + i) *
      (P.cO * P.iRescale *
        (interfaceKernel P.aT (squared_euclidean_distances rt D.rest grid i t) -
          interfaceKernel P.aT (squared_euclidean_distances rt D.ref grid i t)))

/-- Row `r` of `universal_grid_surface_points_matrix`: the horizontal stack
of the grid coordinates, their squares and their cross products,
transposed. -/
def universalGridRow (grid : ℕ → ℕ → α) (r t : ℕ) : α :=
  if r < 3 then grid t r
  else if r < 6 then grid t (r - 3) ^ 2
  else if r = 6 then grid t 0 * grid t 1
  else if r = 7 then grid t 0 * grid t 2
  else if r = 8 then grid t 1 * grid t 2
  else 0

/-- `contribution_universal_drift`: the universal-drift contribution at
evaluation point `t`, summed over weight rows `[3n + m, 3n + m + u)`, with
the `_aux_magic_term` rescale (1 on the first three rows, `gi_reescale`
afterwards). -/
def contribution_universal_drift (P : KrigingParams α) (D : SeriesData α)
    (grid : ℕ → ℕ → α) (w : ℕ → α) (t : ℕ) : α :=
  ∑ r ∈ Finset.range D.u,
    w (3 * D.n + D.m + r) * P.giRescale * (if r < 3 then 1 else P.giRescale) *
      universalGridRow grid r t

/-- `contribution_faults`: the fault-drift contribution, summed over weight
rows `[3n + m + u, 3n + m + u + p)`.  NOTE: the source slices
`self.fault_matrix[a:b]`, i.e. slices fault-matrix ROWS by the chunk bounds
`a:b` (not columns), so row `r` of the chunk-sliced fault matrix is row
`a + r` of the full fault matrix. -/
def contribution_faults (D : SeriesData α) (w : ℕ → α) (a t : ℕ) : α :=
  ∑ r ∈ Finset.range D.p,
    w (3 * D.n + D.m + D.u + r) * D.faultM (a + r) t

/-- `grid_val[a:b]`: the contiguous chunk of the evaluation points starting
at `a`, as passed to the contribution functions by `scalar_field_loop`. -/
def chunkGrid (grid : ℕ → ℕ → α) (a t d : ℕ) : α :=
  grid (a + t) d

/-- `partial_Z_x`: the sum of the four contributions over the chunk starting
at `a`, at chunk-local index `t`. -/
def partZ (P : KrigingParams α) (D : SeriesData α) (rt : α → α)
    (grid : ℕ → ℕ → α) (w : ℕ → α) (a t : ℕ) : α :=
  contribution_gradient_interface P D rt (chunkGrid grid a) w t +
    contribution_interface P D rt (chunkGrid grid a) w t +
    contribution_universal_drift P D (chunkGrid grid a) w t +
    contribution_faults D w a t

/-- `scalar_field_loop`: one step of the chunked evaluation; writes the
partial result of chunk `[a, b)` into `Z_x[a:b]` with `T.set_subtensor`. -/
def scalar_field_loop (P : KrigingParams α) (D : SeriesData α) (rt : α → α)
    (grid : ℕ → ℕ → α) (w : ℕ → α) (a b : ℕ) (Z : ℕ → α) : ℕ → α :=
  fun j => if a ≤ j ∧ j < b then partZ P D rt grid w a (j - a) else Z j

/-- The `theano.scan` over consecutive slice pairs in `scalar_field_at_all`:
folds `scalar_field_loop` over the list of `(slices[i], slices[i+1])`
pairs. -/
def applyChunks (P : KrigingParams α) (D : SeriesData α) (rt : α → α)
    (grid : ℕ → ℕ → α) (w : ℕ → α) : List (ℕ × ℕ) → (ℕ → α) → ℕ → α
  | [], Z => Z
  | q :: qs, Z =>
      applyChunks P D rt grid w qs (scalar_field_loop P D rt grid w q.1 q.2 Z)

/-- `scalar_field_at_all` (the `Z_x` output): chunked evaluation of the
potential field from a zero-initialized vector, over the consecutive pairs
of an arbitrary slice list. -/
def scalar_field_at_all (P : KrigingParams α) (D : SeriesData α) (rt : α → α)
    (grid : ℕ → ℕ → α) (w : ℕ → α) (slices : List ℕ) : ℕ → α :=
  applyChunks P D rt grid w (slices.zip slices.tail) (fun _ => 0)

/-- A single unchunked evaluation: the sum of the gradient, interface,
universal-drift and fault contributions over the whole grid (chunk starting
at 0). -/
def scalar_field_unchunked (P : KrigingParams α) (D : SeriesData α)
    (rt : α → α) (grid : ℕ → ℕ → α) (w : ℕ → α) (j : ℕ) : α :=
  partZ P D rt grid w 0 j

lemma contribution_gradient_interface_congr (P : KrigingParams α)
    (D : SeriesData α) (rt : α → α) (grid grid' : ℕ → ℕ → α) (w : ℕ → α)
    (t t' : ℕ) (hg : ∀ d, grid t d = grid' t' d) :
    contribution_gradient_interface P D rt grid w t
      = contribution_gradient_interface P D rt grid' w t' := by
  unfold contribution_gradient_interface
  refine Finset.sum_congr rfl fun i _ => ?_
  simp only [huSimPoint, squared_euclidean_distances, sq3, dot3, hg]

lemma contribution_interface_congr (P : KrigingParams α)
    (D : SeriesData α) (rt : α → α) (grid grid' : ℕ → ℕ → α) (w : ℕ → α)
    (t t' : ℕ) (hg : ∀ d, grid t d = grid' t' d) :
    contribution_interface P D rt grid w t
      = contribution_interface P D rt grid' w t' := by
  unfold contribution_interface
  refine Finset.sum_congr rfl fun i _ => ?_
  simp only [squared_euclidean_distances, sq3, dot3, hg]

lemma contribution_universal_drift_congr (P : KrigingParams α)
    (D : SeriesData α) (grid grid' : ℕ → ℕ → α) (w : ℕ → α)
    (t t' : ℕ) (hg : ∀ d, grid t d = grid' t' d) :
    contribution_universal_drift P D grid w t
      = contribution_universal_drift P D grid' w t' := by
  unfold contribution_universal_drift
  refine Finset.sum_congr rfl fun r _ => ?_
  simp only [universalGridRow, hg]

lemma partZ_eq_unchunked (P : KrigingParams α) (D : SeriesData α)
    (rt : α → α) (grid : ℕ → ℕ → α) (w : ℕ → α) (a j : ℕ)
    (ha : a ≤ j) (hp : D.p = 0) :
    partZ P D rt grid w a (j - a) = scalar_field_unchunked P D rt grid w j := by
  have hg : ∀ d, chunkGrid grid a (j - a) d = chunkGrid grid 0 j d := by
    intro d
    simp [chunkGrid, Nat.add_sub_cancel' ha]
  unfold partZ scalar_field_unchunked partZ
  rw [contribution_gradient_interface_congr P D rt _ _ w _ _ hg,
    contribution_interface_congr P D rt _ _ w _ _ hg,
    contribution_universal_drift_congr P D _ _ w _ _ hg]
  simp [contribution_faults, hp]

lemma applyChunks_untouched (P : KrigingParams α) (D : SeriesData α)
    (rt : α → α) (grid : ℕ → ℕ → α) (w : ℕ → α) (pairs : List (ℕ × ℕ))
    (Z : ℕ → α) (j : ℕ) (h : ∀ q ∈ pairs, ¬(q.1 ≤ j ∧ j < q.2)) :
    applyChunks P D rt grid w pairs Z j = Z j := by
  induction pairs generalizing Z with
  | nil => rfl
  | cons q qs ih =>
      rw [applyChunks, ih _ fun q' hq' => h q' (List.mem_cons_of_mem q hq')]
      exact if_neg (h q (List.mem_cons_self q qs))

lemma applyChunks_covered (P : KrigingParams α) (D : SeriesData α)
    (rt : α → α) (grid : ℕ → ℕ → α) (w : ℕ → α) (pairs : List (ℕ × ℕ))
    (Z : ℕ → α) (j : ℕ) (hp : D.p = 0)
    (h : ∃ q ∈ pairs, q.1 ≤ j ∧ j < q.2) :
    applyChunks P D rt grid w pairs Z j
      = scalar_field_unchunked P D rt grid w j := by
  induction pairs generalizing Z with
  | nil => simp at h
  | cons q qs ih =>
      rw [applyChunks]
      by_cases hqs : ∃ q' ∈ qs, q'.1 ≤ j ∧ j < q'.2
      · exact ih _ hqs
      · push_neg at hqs
        rw [applyChunks_untouched P D rt grid w qs _ j
          (fun q' hq' hcontra => absurd hcontra.2 (not_lt.mpr (hqs q' hq' hcontra.1)))]
        obtain ⟨q', hq', hcov⟩ := h
        rcases List.mem_cons.mp hq' with hq | hq
        · subst hq
          rw [scalar_field_loop, if_pos hcov]
          exact partZ_eq_unchunked P D rt grid w q'.1 j hcov.1 hp
        · exact absurd hcov.2 (not_lt.mpr (hqs q' hq hcov.1))

lemma slices_cover (s : List ℕ) (a j : ℕ) (ha : a ≤ j)
    (hj : j < (a :: s).getLast (List.cons_ne_nil a s)) :
    ∃ q ∈ (a :: s).zip s, q.1 ≤ j ∧ j < q.2 := by
  induction s generalizing a with
  | nil => simp [List.getLast] at hj; omega
  | cons b t ih =>
      by_cases hb : j < b
      · exact ⟨(a, b), by simp [List.zip_cons_cons], ha, hb⟩
      · have hlast : (a :: b :: t).getLast (List.cons_ne_nil a (b :: t))
            = (b :: t).getLast (List.cons_ne_nil b t) :=
          List.getLast_cons (List.cons_ne_nil b t)
        obtain ⟨q, hq, hcov⟩ := ih b (not_lt.mp hb) (hlast ▸ hj)
        exact ⟨q, by simpa [List.zip_cons_cons] using Or.inr hq, hcov⟩

/-- C3 (amended): for a series with no incoming fault rows, chunked
evaluation over any slice list starting at 0, for any point below the final
slice bound, agrees with the single unchunked evaluation of the sum of the
gradient, interface, universal-drift and fault contributions.  (With fault
rows present this fails: see the counterexample.) -/
theorem scalar_field_chunked_eq (P : KrigingParams α) (D : SeriesData α)
    (rt : α → α) (grid : ℕ → ℕ → α) (w : ℕ → α) (s : List ℕ) (j : ℕ)
    (hp : D.p = 0)
    (hj : j < (0 :: s).getLast (List.cons_ne_nil 0 s)) :
    scalar_field_at_all P D rt grid w (0 :: s) j
      = scalar_field_unchunked P D rt grid w j := by
  unfold scalar_field_at_all
  exact applyChunks_covered P D rt grid w _ _ j hp
    (slices_cover s 0 j (Nat.zero_le j) hj)

/-- Concrete grid for the chunking witness: point `t` is `(t, 0, 0)`. -/
def exGrid : ℕ → ℕ → ℚ :=
  fun t d => if d = 0 then (t : ℚ) else 0

/-- Concrete all-ones weight vector. -/
def exW : ℕ → ℚ :=
  fun _ => 1

theorem scalar_field_chunked_eq_witness :
    scalar_field_at_all exP exD id exGrid exW [0, 1, 2] 1
      = scalar_field_unchunked exP exD id exGrid exW 1 :=
  scalar_field_chunked_eq exP exD id exGrid exW [1, 2] 1 rfl (by decide)

/-- Series data refuting C3 as stated: one incoming fault row whose first
row is identically 1, no dips/points/drift. -/
def c3D : SeriesData ℚ where
  n := 0
  m := 0
  p := 1
  u := 0
  dips := fun _ _ => 0
  rest := fun _ _ => 0
  ref := fun _ _ => 0
  faultCols := 2
  faultM := fun r _ => if r = 0 then 1 else 0

/-- C3 counterexample: with one incoming fault row, evaluating in two
chunks of size 1 (`slices = [0, 1, 2]`) differs from the unchunked
evaluation at point 1, because `contribution_faults` slices fault-matrix
rows (not columns) by the chunk bounds. -/
theorem scalar_field_chunked_counterexample :
    scalar_field_at_all exP c3D id exGrid exW [0, 1, 2] 1
      ≠ scalar_field_unchunked exP c3D id exGrid exW 1 := by
  norm_num [scalar_field_at_all, applyChunks, scalar_field_loop, partZ,
    scalar_field_unchunked, contribution_gradient_interface,
    contribution_interface, contribution_universal_drift,
    contribution_faults, c3D, exW, chunkGrid]

/-- `x_to_interpolate`: the evaluation-point array
`T.concatenate([grid, rest_layer_points_all, ref_layer_points_all])`:
`gridLen` grid points, then the `m` rest points, then the `m` reference
points. -/
def x_to_interpolate (D : SeriesData α) (grid : ℕ → ℕ → α) (gridLen : ℕ)
    (j d : ℕ) : α :=
  if j < gridLen then grid j d
  else if j < gridLen + D.m then D.rest (j - gridLen) d
  else D.ref (j - (gridLen + D.m)) d

/-- `T.cumsum` with a running accumulator (inclusive prefix sums). -/
def cumsumFrom (acc : ℕ) : List ℕ → List ℕ
  | [] => []
  | x :: xs => (acc + x) :: cumsumFrom (acc + x) xs

/-- `T.cumsum`: inclusive prefix sums of a list. -/
def cumsum (l : List ℕ) : List ℕ :=
  cumsumFrom 0 l

/-- `npf = T.cumsum(T.concatenate((T.stack([0]),
number_of_points_per_surface_T[:-1])))`: per-surface cumulative offsets into
the rest block. -/
def npf (npps : List ℕ) : List ℕ :=
  cumsum (0 :: npps.dropLast)

/-- `scalar_field_at_surface_points_values =
Z_x[-2 * len_points : -len_points][npf_op]`: the rest-block slice of the
scalar-field vector (length-`L` vector, `m = len_points`), indexed at the
per-surface cumulative offsets. -/
def scalar_field_at_surface_points (Z : ℕ → α) (L m : ℕ) (npps : List ℕ)
    (k : ℕ) : α :=
  Z (L - 2 * m + (npf npps).getD k 0)

lemma cumsumFrom_getD (l : List ℕ) : ∀ (acc k : ℕ), k < l.length →
    (cumsumFrom acc l).getD k 0 = acc + (l.take (k + 1)).sum := by
  induction l with
  | nil => intro acc k h; simp at h
  | cons x xs ih =>
      intro acc k h
      cases k with
      | zero => simp [cumsumFrom]
      | succ k =>
          rw [cumsumFrom, List.getD_cons_succ,
            ih (acc + x) k (by simpa using Nat.lt_of_succ_lt_succ h)]
          simp [List.take_succ_cons]
          omega

lemma npf_getD (npps : List ℕ) (k : ℕ) (hk : k < npps.length) :
    (npf npps).getD k 0 = (npps.take k).sum := by
  unfold npf cumsum
  cases k with
  | zero => simp [cumsumFrom]
  | succ k =>
      rw [show cumsumFrom 0 (0 :: npps.dropLast)
          = 0 :: cumsumFrom 0 npps.dropLast by simp [cumsumFrom]]
      rw [List.getD_cons_succ,
        cumsumFrom_getD npps.dropLast 0 k (by simp [List.length_dropLast]; omega)]
      rw [List.dropLast_eq_take, List.take_take,
        min_eq_left (by omega : k + 1 ≤ npps.length - 1), Nat.zero_add]

lemma take_sum_lt (npps : List ℕ) (k : ℕ) (hk : k < npps.length)
    (hpos : ∀ x ∈ npps, 1 ≤ x) : (npps.take k).sum < npps.sum := by
  have hsplit : (npps.take k).sum + (npps.drop k).sum = npps.sum := by
    rw [← List.sum_append, List.take_append_drop]
  have hne : npps.drop k ≠ [] := by
    intro hnil
    have := List.drop_eq_nil_iff.mp hnil
    omega
  obtain ⟨x, xs, hx⟩ := List.exists_cons_of_ne_nil hne
  have hxmem : x ∈ npps := List.drop_subset k npps (hx ▸ List.mem_cons_self x xs)
  have hx1 := hpos x hxmem
  have hdrop : 1 ≤ (npps.drop k).sum := by
    rw [hx, List.sum_cons]
    omega
  omega

/-- C9: for a series whose rest count `m` equals the total of the
per-surface rest counts `npps`, the segmentation field value of surface `k`
is extracted from the scalar field (evaluated over
`x_to_interpolate`, single production chunk `[0, gridLen + 2m)`) at the
fixed offset `-2m + npf[k]`, and this is exactly the unchunked field value
at evaluation position `gridLen + npf[k]` — the position that
`x_to_interpolate` fills with rest point `npf[k]` of the series. -/
theorem scalar_field_at_surface_points_extraction (P : KrigingParams α)
    (D : SeriesData α) (rt : α → α) (grid : ℕ → ℕ → α) (w : ℕ → α)
    (gridLen : ℕ) (npps : List ℕ) (k : ℕ)
    (hm : D.m = npps.sum) (hk : k < npps.length) (hpos : ∀ x ∈ npps, 1 ≤ x) :
    scalar_field_at_surface_points
        (scalar_field_at_all P D rt (x_to_interpolate D grid gridLen) w
          [0, gridLen + 2 * D.m])
        (gridLen + 2 * D.m) D.m npps k
      = scalar_field_unchunked P D rt (x_to_interpolate D grid gridLen) w
          (gridLen + (npps.take k).sum) ∧
    (∀ d, x_to_interpolate D grid gridLen (gridLen + (npps.take k).sum) d
        = D.rest ((npps.take k).sum) d) := by
  have hlt : (npps.take k).sum < D.m := hm ▸ take_sum_lt npps k hk hpos
  constructor
  · unfold scalar_field_at_surface_points
    rw [npf_getD npps k hk,
      show gridLen + 2 * D.m - 2 * D.m + (npps.take k).sum
        = gridLen + (npps.take k).sum by omega]
    unfold scalar_field_at_all
    have hzip : ([0, gridLen + 2 * D.m].zip [0, gridLen + 2 * D.m].tail)
        = [(0, gridLen + 2 * D.m)] := rfl
    rw [hzip]
    simp only [applyChunks, scalar_field_loop]
    rw [if_pos ⟨Nat.zero_le _, by omega⟩]
    unfold scalar_field_unchunked
    rw [Nat.sub_zero]
  · intro d
    unfold x_to_interpolate
    rw [if_neg (by omega), if_pos (by omega)]
    congr 1
    omega

theorem scalar_field_at_surface_points_extraction_witness :
    scalar_field_at_surface_points
        (scalar_field_at_all exP exD id (x_to_interpolate exD exGrid 3) exW
          [0, 3 + 2 * exD.m])
        (3 + 2 * exD.m) exD.m [1] 0
      = scalar_field_unchunked exP exD id (x_to_interpolate exD exGrid 3) exW
          (3 + ([1].take 0).sum) ∧
    x_to_interpolate exD exGrid 3 (3 + ([1].take 0).sum) 0
      = exD.rest (([1].take 0).sum) 0 :=
  ⟨(scalar_field_at_surface_points_extraction exP exD id exGrid exW 3 [1] 0
      (by decide) (by decide) (by decide)).1,
   (scalar_field_at_surface_points_extraction exP exD id exGrid exW 3 [1] 0
      (by decide) (by decide) (by decide)).2 0⟩

/-- `ref_positions = T.cumsum(T.concatenate((T.stack([0]),
number_of_points_per_surface[:-1] + 1)))` in `set_rest_ref_matrix`: the
index of the first (reference) point of each surface, where `npps` holds
each surface's rest count (points beyond the reference). -/
def set_rest_ref_positions (npps : List ℕ) : List ℕ :=
  cumsum (0 :: npps.dropLast.map (· + 1))

/-- `ref_points = T.repeat(surface_points_all[ref_positions],
number_of_points_per_surface, axis=0)`: the reference point of each surface,
replicated to align with that surface's rest count. -/
def ref_points {β : Type} (pts : List β) (npps : List ℕ) (dflt : β) : List β :=
  (((set_rest_ref_positions npps).zip npps).map
    (fun pc => List.replicate pc.2 (pts.getD pc.1 dflt))).flatten

/-- `rest_points = surface_points_all[T.nonzero(rest_mask)[0]]` where
`rest_mask` is 1 everywhere except at `ref_positions`: the input points whose
index is not a reference position, in input order. -/
def rest_points {β : Type} (pts : List β) (npps : List ℕ) : List β :=
  (pts.enum.filter fun q => decide (q.1 ∉ set_rest_ref_positions npps)).map
    Prod.snd

lemma cumsumFrom_shift (L : List ℕ) : ∀ acc : ℕ,
    cumsumFrom acc L = (cumsumFrom 0 L).map (· + acc) := by
  induction L with
  | nil => intro acc; rfl
  | cons x xs ih =>
      intro acc
      simp only [cumsumFrom, List.map_cons]
      refine congrArg₂ List.cons (by omega) ?_
      rw [ih (acc + x), ih (0 + x), List.map_map]
      exact List.map_congr_left fun a _ => by simp [Function.comp]; omega

lemma positions_single (n : ℕ) : set_rest_ref_positions [n] = [0] := by
  rfl

lemma positions_cons (n b : ℕ) (t : List ℕ) :
    set_rest_ref_positions (n :: b :: t)
      = 0 :: (set_rest_ref_positions (b :: t)).map (· + (n + 1)) := by
  unfold set_rest_ref_positions cumsum
  rw [List.dropLast_cons₂, List.map_cons]
  simp only [cumsumFrom, Nat.zero_add, List.map_cons]
  rw [cumsumFrom_shift ((b :: t).dropLast.map (· + 1)) (n + 1)]

lemma zip_positions_cons (n : ℕ) (ns : List ℕ) :
    (set_rest_ref_positions (n :: ns)).zip (n :: ns)
      = (0, n) :: (((set_rest_ref_positions ns).map (· + (n + 1))).zip ns) := by
  cases ns with
  | nil => rfl
  | cons b t => rw [positions_cons, List.zip_cons_cons]

lemma ref_aux {β : Type} (dflt : β) (surfaces : List (List β)) :
    ∀ pre : List β, (∀ s ∈ surfaces, 1 ≤ s.length) →
      (((set_rest_ref_positions (surfaces.map fun s => s.length - 1)).zip
          (surfaces.map fun s => s.length - 1)).map
        (fun pc => List.replicate pc.2
          ((pre ++ surfaces.flatten).getD (pc.1 + pre.length) dflt))).flatten
      = (surfaces.map fun s =>
          List.replicate (s.length - 1) (s.headD dflt)).flatten := by
  induction surfaces with
  | nil => intro pre h; rfl
  | cons s ss ih =>
      intro pre h
      have hs : 1 ≤ s.length := h s (List.mem_cons_self s ss)
      simp only [List.map_cons, List.flatten_cons]
      rw [zip_positions_cons, List.map_cons, List.flatten_cons]
      congr 1
      · show List.replicate (s.length - 1)
            ((pre ++ (s ++ ss.flatten)).getD (0 + pre.length) dflt)
          = List.replicate (s.length - 1) (s.headD dflt)
        rw [Nat.zero_add,
          List.getD_append_right pre (s ++ ss.flatten) dflt pre.length le_rfl,
          Nat.sub_self, List.getD_append s ss.flatten dflt 0 (by omega)]
        cases s with
        | nil => simp at hs
        | cons a t => rfl
      · rw [List.zip_map_left, List.map_map]
        have hfun : ((fun pc : ℕ × ℕ => List.replicate pc.2
              ((pre ++ (s ++ ss.flatten)).getD (pc.1 + pre.length) dflt)) ∘
              Prod.map (· + (s.length - 1 + 1)) id)
            = fun pc : ℕ × ℕ => List.replicate pc.2
              (((pre ++ s) ++ ss.flatten).getD (pc.1 + (pre ++ s).length) dflt) := by
          funext pc
          obtain ⟨p, c⟩ := pc
          simp only [Function.comp_apply, Prod.map_apply, id_eq]
          rw [← List.append_assoc,
            show p + (s.length - 1 + 1) + pre.length = p + (pre ++ s).length from by
              rw [List.length_append]; omega]
        rw [hfun]
        exact ih (pre ++ s) (fun s' hs' => h s' (List.mem_cons_of_mem s hs'))

lemma filter_head_out {β : Type} (s : List β) (k : ℕ) (E : List ℕ)
    (hE : ∀ e ∈ E, k + s.length ≤ e) :
    ((List.enumFrom k s).filter fun q => decide (q.1 ∉ k :: E)).map Prod.snd
      = s.tail := by
  cases s with
  | nil => rfl
  | cons x xs =>
      have hall : ∀ q ∈ List.enumFrom (k + 1) xs,
          (decide (q.1 ∉ k :: E) : Bool) = true := by
        intro q hq
        have h1 := List.le_fst_of_mem_enumFrom hq
        have h2 := List.fst_lt_add_of_mem_enumFrom hq
        simp only [decide_eq_true_eq, List.mem_cons, not_or]
        refine ⟨by omega, fun hmem => ?_⟩
        have h3 := hE q.1 hmem
        simp only [List.length_cons] at h3
        omega
      simp only [List.enumFrom]
      rw [List.filter_cons_of_neg (by simp), List.filter_eq_self.mpr hall,
        List.enumFrom_map_snd]
      rfl

lemma rest_aux {β : Type} (surfaces : List (List β)) :
    ∀ k : ℕ, (∀ s ∈ surfaces, 1 ≤ s.length) →
      ((List.enumFrom k surfaces.flatten).filter fun q =>
          decide (q.1 ∉ (set_rest_ref_positions
            (surfaces.map fun s => s.length - 1)).map (· + k))).map Prod.snd
        = (surfaces.map fun s => s.tail).flatten := by
  induction surfaces with
  | nil => intro k h; rfl
  | cons s ss ih =>
      intro k h
      have hs : 1 ≤ s.length := h s (List.mem_cons_self s ss)
      simp only [List.map_cons, List.flatten_cons]
      rw [List.enumFrom_append, List.filter_append, List.map_append]
      cases ss with
      | nil =>
          simp only [List.map_nil, List.flatten_nil, List.enumFrom_nil,
            List.filter_nil, List.append_nil]
          simp only [positions_single, List.map_cons, List.map_nil, Nat.zero_add]
          exact filter_head_out s k [] (by intro e he; simp at he)
      | cons s2 ss2 =>
          simp only [List.map_cons] at ih ⊢
          simp only [positions_cons, List.map_cons, Nat.zero_add, List.map_map]
          have hmapeq : (set_rest_ref_positions
                ((s2.length - 1) :: ss2.map fun s => s.length - 1)).map
                  ((· + k) ∘ (· + (s.length - 1 + 1)))
              = (set_rest_ref_positions
                ((s2.length - 1) :: ss2.map fun s => s.length - 1)).map
                  (· + (k + s.length)) :=
            List.map_congr_left fun a _ => by simp only [Function.comp_apply]; omega
          simp only [hmapeq]
          congr 1
          · refine filter_head_out s k _ ?_
            intro e he
            simp only [List.mem_map] at he
            obtain ⟨p, _, rfl⟩ := he
            omega
          · have hpred : ∀ q ∈ List.enumFrom (k + s.length) (s2 :: ss2).flatten,
                (decide (q.1 ∉ k :: (set_rest_ref_positions
                    ((s2.length - 1) :: ss2.map fun s => s.length - 1)).map
                      (· + (k + s.length))) : Bool)
                  = decide (q.1 ∉ (set_rest_ref_positions
                    ((s2.length - 1) :: ss2.map fun s => s.length - 1)).map
                      (· + (k + s.length))) := by
              intro q hq
              have h1 := List.le_fst_of_mem_enumFrom hq
              have hne : q.1 ≠ k := by omega
              simp [List.mem_cons, hne]
            rw [List.filter_congr hpred]
            exact ih (k + s.length) (fun s' hs' => h s' (List.mem_cons_of_mem s hs'))

lemma rest_points_flatten {β : Type} (surfaces : List (List β))
    (h : ∀ s ∈ surfaces, 1 ≤ s.length) :
    rest_points surfaces.flatten (surfaces.map fun s => s.length - 1)
      = (surfaces.map fun s => s.tail).flatten := by
  unfold rest_points
  have haux := rest_aux surfaces 0 h
  rw [show (set_rest_ref_positions (surfaces.map fun s => s.length - 1)).map (· + 0)
      = set_rest_ref_positions (surfaces.map fun s => s.length - 1) from by
    simp] at haux
  exact haux

lemma ref_points_flatten {β : Type} (dflt : β) (surfaces : List (List β))
    (h : ∀ s ∈ surfaces, 1 ≤ s.length) :
    ref_points surfaces.flatten (surfaces.map fun s => s.length - 1) dflt
      = (surfaces.map fun s =>
          List.replicate (s.length - 1) (s.headD dflt)).flatten := by
  unfold ref_points
  have haux := ref_aux dflt surfaces [] h
  simp only [List.nil_append, List.length_nil, Nat.add_zero] at haux
  exact haux

lemma length_le_flatten_length {β : Type} (surfaces : List (List β))
    (h : ∀ s ∈ surfaces, 1 ≤ s.length) :
    surfaces.length ≤ surfaces.flatten.length := by
  induction surfaces with
  | nil => exact Nat.le_refl 0
  | cons s ss ih =>
      have hs := h s (List.mem_cons_self s ss)
      have hss := ih (fun s' hs' => h s' (List.mem_cons_of_mem s hs'))
      simp only [List.flatten_cons, List.length_append, List.length_cons]
      omega

lemma flatten_tail_length {β : Type} (surfaces : List (List β))
    (h : ∀ s ∈ surfaces, 1 ≤ s.length) :
    ((surfaces.map fun s => s.tail).flatten).length
      = surfaces.flatten.length - surfaces.length := by
  induction surfaces with
  | nil => rfl
  | cons s ss ih =>
      have hs := h s (List.mem_cons_self s ss)
      have h' : ∀ s' ∈ ss, 1 ≤ s'.length :=
        fun s' hs' => h s' (List.mem_cons_of_mem s hs')
      have hss := length_le_flatten_length ss h'
      simp only [List.map_cons, List.flatten_cons, List.length_append,
        List.length_tail, List.length_cons]
      rw [ih h']
      omega

/-- C5: for a series given as a list of surfaces each with at least 2 points
(so ≥ 1 point beyond the reference), the reference/rest split of
`set_rest_ref_matrix` yields exactly `total - k` rest points and a reference
list consisting of the first point of each of the `k` surfaces, replicated
to align with that surface's rest count. -/
theorem set_rest_ref_matrix_split {β : Type} (dflt : β)
    (surfaces : List (List β)) (h : ∀ s ∈ surfaces, 2 ≤ s.length) :
    (rest_points surfaces.flatten (surfaces.map fun s => s.length - 1)).length
        = surfaces.flatten.length - surfaces.length ∧
    ref_points surfaces.flatten (surfaces.map fun s => s.length - 1) dflt
        = (surfaces.map fun s =>
            List.replicate (s.length - 1) (s.headD dflt)).flatten := by
  have h1 : ∀ s ∈ surfaces, 1 ≤ s.length := fun s hs => by have := h s hs; omega
  exact ⟨by rw [rest_points_flatten surfaces h1]; exact flatten_tail_length surfaces h1,
    ref_points_flatten dflt surfaces h1⟩

theorem set_rest_ref_matrix_split_witness :
    (rest_points ([[1, 2], [3, 4, 5]] : List (List ℕ)).flatten
        (([[1, 2], [3, 4, 5]] : List (List ℕ)).map fun s => s.length - 1)).length
        = ([[1, 2], [3, 4, 5]] : List (List ℕ)).flatten.length
            - ([[1, 2], [3, 4, 5]] : List (List ℕ)).length ∧
    ref_points ([[1, 2], [3, 4, 5]] : List (List ℕ)).flatten
        (([[1, 2], [3, 4, 5]] : List (List ℕ)).map fun s => s.length - 1) 0
        = (([[1, 2], [3, 4, 5]] : List (List ℕ)).map fun s =>
            List.replicate (s.length - 1) (s.headD 0)).flatten :=
  set_rest_ref_matrix_split 0 [[1, 2], [3, 4, 5]] (by decide)

/-- C6 counterexample: a series containing a surface with a single point
(`[7]`, rest count 0) does not make `set_rest_ref_matrix` fail: the split is
still produced — the single-point surface simply contributes no rest point
and no reference replica (`rest = [9]`, `ref = [8]` for points `[7, 8, 9]`
with surfaces `[[7], [8, 9]]`). -/
theorem set_rest_ref_single_point_no_error :
    rest_points ([7, 8, 9] : List ℕ) [0, 1] = [9] ∧
    ref_points ([7, 8, 9] : List ℕ) [0, 1] 0 = [8] := by
  decide

/-- C6 (amended): `set_rest_ref_matrix` performs no validation and never
fails; whenever every surface is nonempty (≥ 1 point, so even with surfaces
of fewer than 2 points) it silently produces a split with exactly
`total - k` rest points. -/
theorem set_rest_ref_no_failure {β : Type} (surfaces : List (List β))
    (h : ∀ s ∈ surfaces, 1 ≤ s.length) :
    (rest_points surfaces.flatten (surfaces.map fun s => s.length - 1)).length
      = surfaces.flatten.length - surfaces.length := by
  rw [rest_points_flatten surfaces h]
  exact flatten_tail_length surfaces h

theorem set_rest_ref_no_failure_witness :
    (rest_points ([[7], [8, 9]] : List (List ℕ)).flatten
        (([[7], [8, 9]] : List (List ℕ)).map fun s => s.length - 1)).length
      = ([[7], [8, 9]] : List (List ℕ)).flatten.length
          - ([[7], [8, 9]] : List (List ℕ)).length :=
  set_rest_ref_no_failure [[7], [8, 9]] (by decide)

/-- `T.max(Z_x)` over a scalar-field vector given as a list. -/
def listMax (Z : List ℚ) : ℚ :=
  Z.foldl max (Z.headD 0)

/-- `T.min(Z_x)` over a scalar-field vector given as a list. -/
def listMin (Z : List ℚ) : ℚ :=
  Z.foldl min (Z.headD 0)

/-- `compare`: the smooth indicator of one threshold pair `(a, b)` at slice
offset `s`, `sigm = -n_surface_0 / (1 + exp(-l (Z - a))) - n_surface_1 /
(1 + exp(l (Z - b))) + drift`, with the exponential abstracted as `ex` and
the slope `l` given per evaluation point. -/
def compare (ex : ℚ → ℚ) (a b : ℚ) (s : ℕ) (Z : ℕ → ℚ) (l : ℕ → ℚ)
    (nS drift : ℕ → ℕ → ℚ) (prop j : ℕ) : ℚ :=
  -nS prop s / (1 + ex (-l j * (Z j - a))) -
    nS prop (s + 1) / (1 + ex (l j * (Z j - b))) + drift prop s

/-- `scalar_field_iter`: the list of segmentation thresholds
`[max_pot + boundary_pad, scalar_field_at_surface_points…,
min_pot - boundary_pad]` with `boundary_pad = (max_pot - min_pot) * 0.01`. -/
def scalar_field_iter (Z : List ℚ) (sfasp : List ℚ) : List ℚ :=
  (listMax Z + (listMax Z - listMin Z) * (1 / 100)) ::
    (sfasp ++ [listMin Z - (listMax Z - listMin Z) * (1 / 100)])

/-- `n_surface_op_float_sigmoid` in `export_formation_block`: the values
matrix repeated twice along the columns (`T.repeat(values, 2, axis=1)`),
with column 0 and the last column `2c - 1` overwritten by `-1`. -/
def nsFormation (values : ℕ → ℕ → ℚ) (c : ℕ) (prop t : ℕ) : ℚ :=
  if t = 0 then -1
  else if t = 2 * c - 1 then -1
  else values prop (t / 2)

/-- `drift` in `export_formation_block`: `n_surface_op_float_sigmoid` with
column 0 replaced by column 1. -/
def driftFormation (values : ℕ → ℕ → ℚ) (c : ℕ) (prop t : ℕ) : ℚ :=
  if t = 0 then nsFormation values c prop 1 else nsFormation values c prop t

/-- `export_formation_block`: the `theano.scan` over adjacent threshold
pairs (`taps=[0, 1]`) zipped with the even slice offsets
`T.arange(0, 2c, 2)` (so `min(#thresholds - 1, c)` iterations), summed over
the iterations (`fault_block.sum(axis=0)`); the constant formation slope is
`slope / (max_pot - min_pot)` with default `slope = 5000`. -/
def export_formation_block (ex : ℚ → ℚ) (Z : List ℚ) (sfasp : List ℚ)
    (values : ℕ → ℕ → ℚ) (c : ℕ) (slope : ℚ) (prop j : ℕ) : ℚ :=
  ∑ i ∈ Finset.range (min ((scalar_field_iter Z sfasp).length - 1) c),
    compare ex ((scalar_field_iter Z sfasp).getD i 0)
      ((scalar_field_iter Z sfasp).getD (i + 1) 0) (2 * i)
      (fun t => Z.getD t 0) (fun _ => slope / (listMax Z - listMin Z))
      (nsFormation values c) (driftFormation values c) prop j

/-- The claim's threshold list, written from the spec's words: `[max(Z) +
pad, surface-point field values in series order, min(Z) - pad]` with `pad`
equal to 1% of `max(Z) - min(Z)`. -/
def segmentation_thresholds_spec (Z : List ℚ) (sfasp : List ℚ) : List ℚ :=
  [listMax Z + (listMax Z - listMin Z) / 100] ++ sfasp ++
    [listMin Z - (listMax Z - listMin Z) / 100]

/-- The claim's segmentator, written from the spec's words: for each
adjacent threshold pair `(a, b)` the indicator
`-id_low / (1 + exp(-l (Z - a))) - id_high / (1 + exp(l (Z - b))) + drift`,
summed over all the adjacent pairs. -/
def formation_block_spec (ex : ℚ → ℚ) (Z : List ℚ) (sfasp : List ℚ)
    (values : ℕ → ℕ → ℚ) (c : ℕ) (l : ℚ) (prop j : ℕ) : ℚ :=
  ∑ i ∈ Finset.range ((segmentation_thresholds_spec Z sfasp).length - 1),
    (-nsFormation values c prop (2 * i) /
        (1 + ex (-l * (Z.getD j 0 -
          (segmentation_thresholds_spec Z sfasp).getD i 0))) -
      nsFormation values c prop (2 * i + 1) /
        (1 + ex (l * (Z.getD j 0 -
          (segmentation_thresholds_spec Z sfasp).getD (i + 1) 0))) +
      driftFormation values c prop (2 * i))

/-- C4: whenever the values matrix has one more column than there are
surface-point field values (the shape produced by the scheduler), the
segmentator of the source equals the claim's description: thresholds
`[max + pad, field values, min - pad]` with `pad = 1%` of the range, and the
per-pair sigmoid indicators summed over every adjacent threshold pair. -/
theorem export_formation_block_spec (ex : ℚ → ℚ) (Z : List ℚ)
    (sfasp : List ℚ) (values : ℕ → ℕ → ℚ) (c : ℕ) (slope : ℚ) (prop j : ℕ)
    (hc : c = sfasp.length + 1) :
    export_formation_block ex Z sfasp values c slope prop j
      = formation_block_spec ex Z sfasp values c
          (slope / (listMax Z - listMin Z)) prop j := by
  have hthr : scalar_field_iter Z sfasp = segmentation_thresholds_spec Z sfasp := by
    unfold scalar_field_iter segmentation_thresholds_spec
    rw [List.singleton_append]
    congr 1
    · ring
    · congr 1
      congr 1
      ring
  have hlen2 : (segmentation_thresholds_spec Z sfasp).length = sfasp.length + 2 := by
    simp [segmentation_thresholds_spec]
  unfold export_formation_block formation_block_spec
  rw [hthr, hlen2, hc,
    show sfasp.length + 2 - 1 = sfasp.length + 1 from rfl, min_self]
  refine Finset.sum_congr rfl fun i _ => ?_
  unfold compare
  ring

/-- Concrete values matrix for the segmentation witness. -/
def exVals : ℕ → ℕ → ℚ :=
  fun _ t => (t : ℚ) + 1

theorem export_formation_block_spec_witness :
    export_formation_block id [0, 10] [5] exVals 2 5000 0 0
      = formation_block_spec id [0, 10] [5] exVals 2
          (5000 / (listMax [0, 10] - listMin [0, 10])) 0 0 :=
  export_formation_block_spec id [0, 10] [5] exVals 2 5000 0 0 (by decide)

/-- `fault_points` in `select_finite_faults`:
`T.vertical_stack(T.stack([ref_layer_points[0]]), rest_layer_points)` — the
fault's own points, the reference point first and the `m` rest points after
it. -/
def fault_points (D : SeriesData ℚ) (i d : ℕ) : ℚ :=
  if i = 0 then D.ref 0 d else D.rest (i - 1) d

/-- `ctr = T.mean(fault_points, axis=1)`. -/
def faultCtr (D : SeriesData ℚ) (d : ℕ) : ℚ :=
  (∑ i ∈ Finset.range (D.m + 1), fault_points D i d) / (D.m + 1)

/-- `M = T.dot(x, x.T)` with `x = fault_points - ctr`: the 3 × 3 scatter
matrix of the fault points. -/
def faultScatterM (D : SeriesData ℚ) (d e : ℕ) : ℚ :=
  ∑ i ∈ Finset.range (D.m + 1),
    (fault_points D i d - faultCtr D d) * (fault_points D i e - faultCtr D e)

/-- `rotated_x = T.dot(grid, U)` with `U = T.nlinalg.svd(M)[2]`, the SVD
abstracted as the parameter `svd` applied to the scatter matrix. -/
def rotatedX (D : SeriesData ℚ) (svd : (ℕ → ℕ → ℚ) → ℕ → ℕ → ℚ)
    (grid : ℕ → ℕ → ℚ) (g c : ℕ) : ℚ :=
  ∑ d ∈ Finset.range 3, grid g d * svd (faultScatterM D) d c

/-- `rotated_fault_points = T.dot(fault_points.T, U)`. -/
def rotatedFaultPoints (D : SeriesData ℚ) (svd : (ℕ → ℕ → ℚ) → ℕ → ℕ → ℚ)
    (i c : ℕ) : ℚ :=
  ∑ d ∈ Finset.range 3, fault_points D i d * svd (faultScatterM D) d c

/-- `rotated_ctr = T.mean(rotated_fault_points, axis=0)`. -/
def rotatedCtr (D : SeriesData ℚ) (svd : (ℕ → ℕ → ℚ) → ℕ → ℕ → ℚ)
    (c : ℕ) : ℚ :=
  (∑ i ∈ Finset.range (D.m + 1), rotatedFaultPoints D svd i c) / (D.m + 1)

/-- `.max()` over a projected fault-point column of `q` entries. -/
def colMax (f : ℕ → ℚ) (q : ℕ) : ℚ :=
  (List.range q).foldl (fun acc i => max acc (f i)) (f 0)

/-- `.min()` over a projected fault-point column of `q` entries. -/
def colMin (f : ℕ → ℚ) (q : ℕ) : ℚ :=
  (List.range q).foldl (fun acc i => min acc (f i)) (f 0)

/-- `a_radio = (max - min) / 2 + self.inf_factor[n_series - 1]` where
`inf_factor = is_finite * 10`. -/
def aRadius (D : SeriesData ℚ) (svd : (ℕ → ℕ → ℚ) → ℕ → ℕ → ℚ)
    (isFinite : ℕ → ℚ) (nSeries : ℕ) : ℚ :=
  (colMax (fun i => rotatedFaultPoints D svd i 0) (D.m + 1)
      - colMin (fun i => rotatedFaultPoints D svd i 0) (D.m + 1)) / 2
    + isFinite (nSeries - 1) * 10

/-- `b_radio`: as `a_radio`, on the second principal axis. -/
def bRadius (D : SeriesData ℚ) (svd : (ℕ → ℕ → ℚ) → ℕ → ℕ → ℚ)
    (isFinite : ℕ → ℚ) (nSeries : ℕ) : ℚ :=
  (colMax (fun i => rotatedFaultPoints D svd i 1) (D.m + 1)
      - colMin (fun i => rotatedFaultPoints D svd i 1) (D.m + 1)) / 2
    + isFinite (nSeries - 1) * 10

/-- `select_finite_faults`: flags an evaluation point when its projected
coordinates lie inside the inflated principal-axes ellipse of the fault's
own points. -/
def select_finite_faults (D : SeriesData ℚ)
    (svd : (ℕ → ℕ → ℚ) → ℕ → ℕ → ℚ) (isFinite : ℕ → ℚ) (nSeries : ℕ)
    (grid : ℕ → ℕ → ℚ) (g : ℕ) : Bool :=
  decide ((rotatedX D svd grid g 0 - rotatedCtr D svd 0) ^ 2
        / aRadius D svd isFinite nSeries ^ 2
      + (rotatedX D svd grid g 1 - rotatedCtr D svd 1) ^ 2
        / bRadius D svd isFinite nSeries ^ 2
    < 1)

/-- The slope tensor of `export_fault_block`:
`l = T.switch(finite_faults_sel, offset_slope / (max_pot - min_pot),
slope / (max_pot - min_pot))`, with defaults `slope = 50`,
`offset_slope = 5000`. -/
def fault_slope (Z : List ℚ) (sel : ℕ → Bool) (slope offsetSlope : ℚ)
    (j : ℕ) : ℚ :=
  if sel j then offsetSlope / (listMax Z - listMin Z)
  else slope / (listMax Z - listMin Z)

/-- `n_surface_op_float_sigmoid` in `export_fault_block`: only the first
property row of `values` is used (`values_properties_op[[0], :]`), repeated
twice per column, with column 1 and the last column overwritten by `-1`. -/
def nsFault (values : ℕ → ℕ → ℚ) (c : ℕ) (prop t : ℕ) : ℚ :=
  if t = 1 then -1
  else if t = 2 * c - 1 then -1
  else values 0 (t / 2)

/-- `drift` in `export_fault_block`: `n_surface_op_float_sigmoid` with
column 0 replaced by column 1. -/
def driftFault (values : ℕ → ℕ → ℚ) (c : ℕ) (prop t : ℕ) : ℚ :=
  if t = 0 then nsFault values c prop 1 else nsFault values c prop t

/-- `export_fault_block`: as `export_formation_block` but with the
per-point slope `fault_slope` selected by the finite-fault ellipse test. -/
def export_fault_block (ex : ℚ → ℚ) (Z : List ℚ) (sfasp : List ℚ)
    (values : ℕ → ℕ → ℚ) (c : ℕ) (sel : ℕ → Bool) (slope offsetSlope : ℚ)
    (prop j : ℕ) : ℚ :=
  ∑ i ∈ Finset.range (min ((scalar_field_iter Z sfasp).length - 1) c),
    compare ex ((scalar_field_iter Z sfasp).getD i 0)
      ((scalar_field_iter Z sfasp).getD (i + 1) 0) (2 * i)
      (fun t => Z.getD t 0) (fault_slope Z sel slope offsetSlope)
      (nsFault values c) (driftFault values c) prop j

/-- C7: for a nondegenerate scalar field, every evaluation point flagged by
the ellipse test of `select_finite_faults` is segmented (through the slope
tensor of `export_fault_block`, defaults 50 and 5000) with slope
`5000 / (max Z - min Z)`, every unflagged point with `50 / (max Z - min Z)`,
and the flagged slope is strictly larger. -/
theorem select_finite_faults_slope (D : SeriesData ℚ)
    (svd : (ℕ → ℕ → ℚ) → ℕ → ℕ → ℚ) (isFinite : ℕ → ℚ) (nSeries : ℕ)
    (grid : ℕ → ℕ → ℚ) (Z : List ℚ) (j j' : ℕ)
    (hrange : listMin Z < listMax Z)
    (hj : select_finite_faults D svd isFinite nSeries grid j = true)
    (hj' : select_finite_faults D svd isFinite nSeries grid j' = false) :
    fault_slope Z (select_finite_faults D svd isFinite nSeries grid) 50 5000 j
        = 5000 / (listMax Z - listMin Z) ∧
    fault_slope Z (select_finite_faults D svd isFinite nSeries grid) 50 5000 j'
        = 50 / (listMax Z - listMin Z) ∧
    fault_slope Z (select_finite_faults D svd isFinite nSeries grid) 50 5000 j'
        < fault_slope Z (select_finite_faults D svd isFinite nSeries grid) 50 5000 j := by
  have hpos : 0 < listMax Z - listMin Z := sub_pos.mpr hrange
  have e1 : fault_slope Z (select_finite_faults D svd isFinite nSeries grid)
      50 5000 j = 5000 / (listMax Z - listMin Z) := by
    unfold fault_slope
    rw [hj]
    rfl
  have e2 : fault_slope Z (select_finite_faults D svd isFinite nSeries grid)
      50 5000 j' = 50 / (listMax Z - listMin Z) := by
    unfold fault_slope
    rw [hj']
    rfl
  refine ⟨e1, e2, ?_⟩
  rw [e1, e2]
  exact (div_lt_div_iff_of_pos_right hpos).mpr (by norm_num)

/-- Identity matrix standing in for the abstract SVD in witnesses. -/
def exSvd : (ℕ → ℕ → ℚ) → ℕ → ℕ → ℚ :=
  fun _ d e => if d = e then 1 else 0

/-- All-finite control vector (`is_finite = 1`) for witnesses. -/
def exIsFinite : ℕ → ℚ :=
  fun _ => 1

/-- Witness grid for the ellipse test: point 0 at the origin (inside the
inflated ellipse), point 1 at `(100, 0, 0)` (outside). -/
def c7grid : ℕ → ℕ → ℚ :=
  fun g d => if g = 1 ∧ d = 0 then 100 else 0

theorem select_finite_faults_slope_witness :
    fault_slope [0, 4] (select_finite_faults c3D exSvd exIsFinite 1 c7grid) 50 5000 0
        = 5000 / (listMax [0, 4] - listMin [0, 4]) ∧
    fault_slope [0, 4] (select_finite_faults c3D exSvd exIsFinite 1 c7grid) 50 5000 1
        = 50 / (listMax [0, 4] - listMin [0, 4]) ∧
    fault_slope [0, 4] (select_finite_faults c3D exSvd exIsFinite 1 c7grid) 50 5000 1
        < fault_slope [0, 4] (select_finite_faults c3D exSvd exIsFinite 1 c7grid) 50 5000 0 :=
  select_finite_faults_slope c3D exSvd exIsFinite 1 c7grid [0, 4] 0 1
    (by norm_num [listMax, listMin, List.foldl])
    (by norm_num [select_finite_faults, rotatedX, rotatedCtr,
      rotatedFaultPoints, fault_points, faultScatterM, faultCtr, aRadius,
      bRadius, colMax, colMin, c3D, exSvd, exIsFinite, c7grid,
      Finset.sum_range_succ, List.range_succ])
    (by norm_num [select_finite_faults, rotatedX, rotatedCtr,
      rotatedFaultPoints, fault_points, faultScatterM, faultCtr, aRadius,
      bRadius, colMax, colMin, c3D, exSvd, exIsFinite, c7grid,
      Finset.sum_range_succ, List.range_succ])

end Gempy
